import Mathlib

/-!
Shallow embedding of `src/lib.rs` (crate `wasm_test`): a molecular scene with a
camera-adaptive visibility/LOD cache, a spatial chunk summarizer and legacy
small-molecule accessors.

Modelling conventions:
* `f32` values are modelled as exact rationals (`ℚ`); the floating-point
  transcendental functions `sin`, `cos`, `sqrt` are abstract parameters
  (a `FloatOps` record), since their results are irrational in general.
* Rust's saturating cast `as u64` from `f32` is modelled by `f32ToU64`:
  truncation toward zero, clamped to `[0, 2^64-1]` (negative inputs give 0).
* `u64` arithmetic is `ℕ` with explicit `% 2^64`; `x << k` is `x * 2^k`
  modulo `2^64`; `^^^` (xor) of values `< 2^64` never overflows.
* `Vec<T>` is `List T`; in-place mutation is explicit state passing on the
  `MolecularSystem` structure.
* `console` logging and `analyze_complete_dataset` (which only logs the
  bounding box and changes no state) are omitted.
-/

/-- Abstract floating-point transcendental operations used by the source
(`f32::sin`, `f32::cos`, `f32::sqrt`).  Theorems quantify over them. -/
structure FloatOps where
  sin : ℚ → ℚ
  cos : ℚ → ℚ
  sqrt : ℚ → ℚ

/-- `pub struct Camera` from the source: camera position and look-at target. -/
structure Camera where
  x : ℚ
  y : ℚ
  z : ℚ
  target_x : ℚ
  target_y : ℚ
  target_z : ℚ

/-- `Camera::new()`: position (0, 2, 5), target the origin. -/
def Camera.new : Camera :=
  { x := 0, y := 2.0, z := 5.0, target_x := 0, target_y := 0, target_z := 0 }

/-- `pub struct AtomData`: one visible particle record. -/
structure AtomData where
  x : ℚ
  y : ℚ
  z : ℚ
  element : ℕ
  radius : ℚ
  lod_level : ℕ

/-- `struct RawAtom`: raw stored particle (position and element tag). -/
structure RawAtom where
  x : ℚ
  y : ℚ
  z : ℚ
  element : ℕ

/-- `pub struct MolecularSystem`: the whole mutable state. -/
structure MolecularSystem where
  all_atoms : List RawAtom
  total_atom_count : ℕ
  grid_size : ℚ
  time : ℚ
  animation_speed : ℚ
  current_camera_hash : ℕ
  cached_visible_atoms : List AtomData

/-- Rust saturating cast `f32 as u64`: truncate toward zero, negative values
become 0, values at or above `u64::MAX` become `u64::MAX`.  For `q ≥ 0`
truncation is `⌊q⌋₊`, and `⌊q⌋₊ = 0` for `q < 0`, so one formula covers both. -/
def f32ToU64 (q : ℚ) : ℕ := min ⌊q⌋₊ (2 ^ 64 - 1)

/-- `MolecularSystem::new()`. -/
def MolecularSystem.new : MolecularSystem :=
  { all_atoms := []
    total_atom_count := 0
    grid_size := 1.0
    time := 0.0
    animation_speed := 1.0
    current_camera_hash := 0
    cached_visible_atoms := [] }

namespace MolecularSystem

/-- Ceiling of the real cube root of `n`: the least `k` with `n ≤ k^3`.
This models `(count as f32).powf(1.0/3.0).ceil() as usize` exactly
(idealizing the `f32` rounding of `powf`). -/
def cbrtCeil (n : ℕ) : ℕ :=
  ((List.range (n + 1)).find? (fun k => decide (n ≤ k ^ 3))).getD n

/-- `MolecularSystem::read_all_atoms_from_source`: appends the simulated file
contents to `all_atoms`.  `count ≤ 2` is the special-cased HF molecule
(note: it pushes the H atom even for `count = 0`); larger counts generate a
cube-packed grid centered on the origin, element tag cycling `i % 4`. -/
def read_all_atoms_from_source (s : MolecularSystem) (count : ℕ) : MolecularSystem :=
  if count ≤ 2 then
    { s with all_atoms :=
        s.all_atoms ++ ([{ x := 0.0, y := 0.0, z := 0.0, element := 0 }] ++
          if 1 < count then [{ x := 0.92, y := 0.0, z := 0.0, element := 1 }] else []) }
  else
    let atoms_per_axis := max (cbrtCeil count) 1
    let spacing := s.grid_size
    let offset := -((atoms_per_axis : ℚ) - 1.0) * spacing * 0.5
    { s with all_atoms := s.all_atoms ++ (List.range count).map (fun i =>
        { x := offset + (↑(i % atoms_per_axis) : ℚ) * spacing
          y := offset + (↑((i / atoms_per_axis) % atoms_per_axis) : ℚ) * spacing
          z := offset + (↑(i / (atoms_per_axis * atoms_per_axis)) : ℚ) * spacing
          element := i % 4 }) }

/-- `MolecularSystem::invalidate_camera_cache`. -/
def invalidate_camera_cache (s : MolecularSystem) : MolecularSystem :=
  { s with current_camera_hash := 0, cached_visible_atoms := [] }

/-- `MolecularSystem::load_atoms_from_file`: record the requested total,
clear the store, read all atoms, then invalidate the camera cache.
(`analyze_complete_dataset` only logs and is omitted.) -/
def load_atoms_from_file (s : MolecularSystem) (count : ℕ) : MolecularSystem :=
  let s1 := { s with total_atom_count := count, all_atoms := [] }
  let s2 := read_all_atoms_from_source s1 count
  invalidate_camera_cache s2

/-- `MolecularSystem::calculate_aggression_factor`: step function of the
total dataset size (the Rust `match` on integer ranges). -/
def calculate_aggression_factor (s : MolecularSystem) : ℚ :=
  if s.total_atom_count ≤ 1000 then 1.0
  else if s.total_atom_count ≤ 10000 then 2.0
  else if s.total_atom_count ≤ 100000 then 4.0
  else if s.total_atom_count ≤ 1000000 then 8.0
  else if s.total_atom_count ≤ 10000000 then 16.0
  else 32.0

/-- `MolecularSystem::calculate_camera_hash`: quantize the six camera scalars
(`* 1000`, cast to `u64`) and the field of view (`* 100`), then xor with
bit shifts 0, 10, 20, 30, 40, 50, 0.  `aspect`, `near`, `far` are ignored
by the source (their Rust names are underscore-prefixed). -/
def calculate_camera_hash (camera : Camera) (fov _aspect _near _far : ℚ) : ℕ :=
  f32ToU64 (camera.x * 1000) ^^^
    (f32ToU64 (camera.y * 1000) * 2 ^ 10) % 2 ^ 64 ^^^
    (f32ToU64 (camera.z * 1000) * 2 ^ 20) % 2 ^ 64 ^^^
    (f32ToU64 (camera.target_x * 1000) * 2 ^ 30) % 2 ^ 64 ^^^
    (f32ToU64 (camera.target_y * 1000) * 2 ^ 40) % 2 ^ 64 ^^^
    (f32ToU64 (camera.target_z * 1000) * 2 ^ 50) % 2 ^ 64 ^^^
    f32ToU64 (fov * 100)

/-- The quantized encoding of an observer descriptor: the seven truncated
`u64` field values that `calculate_camera_hash` combines. -/
def cameraQuantEncoding (camera : Camera) (fov : ℚ) : List ℕ :=
  [f32ToU64 (camera.x * 1000), f32ToU64 (camera.y * 1000),
   f32ToU64 (camera.z * 1000), f32ToU64 (camera.target_x * 1000),
   f32ToU64 (camera.target_y * 1000), f32ToU64 (camera.target_z * 1000),
   f32ToU64 (fov * 100)]

/-- `MolecularSystem::recalculate_visibility_for_camera`: the full O(N)
visibility/LOD evaluator.  Returns the list the source stores into
`cached_visible_atoms`. -/
def recalculate_visibility_for_camera (ops : FloatOps) (s : MolecularSystem)
    (camera : Camera) (fov _aspect _near far : ℚ) : List AtomData :=
  let aggression := s.calculate_aggression_factor
  let max_distance := far * 0.8
  let point_threshold := 50.0 * aggression
  let low_poly_threshold := 20.0 * aggression
  let medium_poly_threshold := 10.0 * aggression
  let vdx := camera.target_x - camera.x
  let vdy := camera.target_y - camera.y
  let vdz := camera.target_z - camera.z
  let view_length := ops.sqrt (vdx * vdx + vdy * vdy + vdz * vdz)
  let vnx := if 0 < view_length then vdx / view_length else 0.0
  let vny := if 0 < view_length then vdy / view_length else 0.0
  let vnz := if 0 < view_length then vdz / view_length else -1.0
  s.all_atoms.filterMap (fun atom =>
    let dx := atom.x - camera.x
    let dy := atom.y - camera.y
    let dz := atom.z - camera.z
    let distance := ops.sqrt (dx * dx + dy * dy + dz * dz)
    if max_distance < distance then none
    else if 0 < distance ∧
        vnx * (dx / distance) + vny * (dy / distance) + vnz * (dz / distance) <
          ops.cos (fov * 0.6) then none
    else
      let lod_level : ℕ :=
        if point_threshold < distance then 0
        else if low_poly_threshold < distance then 1
        else if medium_poly_threshold < distance then 2
        else 3
      let base_radius : ℚ :=
        match atom.element with
        | 0 => 0.25
        | 1 => 0.35
        | 2 => 0.3
        | _ => 0.28
      some { x := atom.x, y := atom.y, z := atom.z, element := atom.element
             radius := base_radius + 0.02 * ops.sin (s.time + atom.x + atom.y + atom.z)
             lod_level := lod_level })

/-- Result of one `get_visible_atoms_for_camera` call: the returned records,
the successor state, and whether the evaluator ran (instrumentation of the
`camera_hash != current_camera_hash` branch). -/
structure QueryResult where
  result : List AtomData
  state : MolecularSystem
  evaluatorRan : Bool

/-- `MolecularSystem::get_visible_atoms_for_camera`: recompute on fingerprint
change, otherwise serve the cache. -/
def get_visible_atoms_for_camera (ops : FloatOps) (s : MolecularSystem)
    (camera : Camera) (fov aspect near far : ℚ) : QueryResult :=
  let camera_hash := calculate_camera_hash camera fov aspect near far
  if camera_hash ≠ s.current_camera_hash then
    let vis := recalculate_visibility_for_camera ops s camera fov aspect near far
    { result := vis
      state := { s with current_camera_hash := camera_hash, cached_visible_atoms := vis }
      evaluatorRan := true }
  else
    { result := s.cached_visible_atoms, state := s, evaluatorRan := false }

/-- `MolecularSystem::get_all_atom_positions`: flat x, y, z, element dump. -/
def get_all_atom_positions (s : MolecularSystem) : List ℚ :=
  s.all_atoms.flatMap (fun atom => [atom.x, atom.y, atom.z, (atom.element : ℚ)])

/-- The in-chunk test from `get_spatial_chunks`: componentwise distance from
the cell center at most `chunk_size * 0.5`. -/
def withinChunk (chunk_size center_x center_y center_z : ℚ) (atom : RawAtom) : Bool :=
  decide (|atom.x - center_x| ≤ chunk_size * 0.5) &&
    decide (|atom.y - center_y| ≤ chunk_size * 0.5) &&
    decide (|atom.z - center_z| ≤ chunk_size * 0.5)

/-- Number of atoms counted in one cell by `get_spatial_chunks`. -/
def chunkCellCount (atoms : List RawAtom) (chunk_size center_x center_y center_z : ℚ) : ℕ :=
  (atoms.filter (withinChunk chunk_size center_x center_y center_z)).length

/-- Minimum of `f` over a non-empty atom list.  The source folds `min`
starting from `f32::INFINITY`; over a non-empty list this equals folding
from the first element's value. -/
def atomFoldMin (f : RawAtom → ℚ) (a0 : RawAtom) (rest : List RawAtom) : ℚ :=
  rest.foldl (fun m a => min m (f a)) (f a0)

/-- Maximum of `f` over a non-empty atom list (source folds from
`f32::NEG_INFINITY`). -/
def atomFoldMax (f : RawAtom → ℚ) (a0 : RawAtom) (rest : List RawAtom) : ℚ :=
  rest.foldl (fun m a => max m (f a)) (f a0)

/-- `MolecularSystem::get_spatial_chunks`: bounding box, a cubic grid whose
per-axis cell count is derived from the x extent only, and one 8-float
record per non-empty cell, in x-major loop order. -/
def get_spatial_chunks (s : MolecularSystem) (chunk_size : ℚ) : List ℚ :=
  match s.all_atoms with
  | [] => []
  | a0 :: rest =>
    let min_x := atomFoldMin (fun a => a.x) a0 rest
    let min_y := atomFoldMin (fun a => a.y) a0 rest
    let min_z := atomFoldMin (fun a => a.z) a0 rest
    let max_x := atomFoldMax (fun a => a.x) a0 rest
    let chunks_per_axis := max (⌈(max_x - min_x) / chunk_size⌉.toNat) 1
    (List.range chunks_per_axis).flatMap (fun x =>
      (List.range chunks_per_axis).flatMap (fun y =>
        (List.range chunks_per_axis).flatMap (fun z =>
          let center_x := min_x + ((x : ℚ) + 0.5) * chunk_size
          let center_y := min_y + ((y : ℚ) + 0.5) * chunk_size
          let center_z := min_z + ((z : ℚ) + 0.5) * chunk_size
          let atom_count := chunkCellCount s.all_atoms chunk_size center_x center_y center_z
          if 0 < atom_count then
            [center_x, center_y, center_z, chunk_size, (atom_count : ℚ), 0.0, 0.0, 0.0]
          else [])))

/-- `MolecularSystem::update`: advance the animation clock and invalidate
the camera cache. -/
def update (s : MolecularSystem) (delta_time : ℚ) : MolecularSystem :=
  invalidate_camera_cache { s with time := s.time + delta_time * s.animation_speed }

/-- `MolecularSystem::set_animation_speed`. -/
def set_animation_speed (s : MolecularSystem) (speed : ℚ) : MolecularSystem :=
  { s with animation_speed := speed }

/-- `MolecularSystem::get_total_atom_count`. -/
def get_total_atom_count (s : MolecularSystem) : ℕ := s.total_atom_count

/-- `MolecularSystem::get_atom_data` (legacy small-molecule accessor):
defined only when the total count is at most 2 and the index is in range;
atom 1 gets a time-animated x offset `0.18 * (sin(time) + 1) * 0.5`. -/
def get_atom_data (ops : FloatOps) (s : MolecularSystem) (index : ℕ) : Option AtomData :=
  if s.total_atom_count ≤ 2 ∧ index < s.all_atoms.length then
    s.all_atoms[index]?.map (fun atom =>
      let animated_offset : ℚ :=
        if index = 1 then 0.18 * (ops.sin s.time + 1.0) * 0.5 else 0.0
      { x := atom.x + animated_offset, y := atom.y, z := atom.z
        element := atom.element
        radius := if atom.element = 0 then 0.25 else 0.35
        lod_level := 3 })
  else none

end MolecularSystem

/-! ### Concrete fixtures used by witnesses and counterexamples -/

/-- Concrete float operations (all constant zero) used to instantiate the
abstract `FloatOps` in witnesses; the theorems quantify over all ops. -/
def constOps : FloatOps := { sin := fun _ => 0, cos := fun _ => 0, sqrt := fun _ => 0 }

/-- Float operations whose `sin` is constantly 1, giving a concrete time
at which `sin(time) = 1` holds exactly. -/
def oneSinOps : FloatOps := { sin := fun _ => 1, cos := fun _ => 0, sqrt := fun _ => 0 }

/-- 8 particles at the corners of the axis-aligned 2×2×2 cube `[-1, 1]³`. -/
def cube8 : MolecularSystem :=
  { MolecularSystem.new with
    total_atom_count := 8
    all_atoms := [⟨-1, -1, -1, 0⟩, ⟨1, -1, -1, 1⟩, ⟨-1, 1, -1, 2⟩, ⟨1, 1, -1, 3⟩,
                  ⟨-1, -1, 1, 0⟩, ⟨1, -1, 1, 1⟩, ⟨-1, 1, 1, 2⟩, ⟨1, 1, 1, 3⟩] }

/-- 3 collinear particles at x = 0, 1, 2; the middle one sits exactly on the
shared boundary plane of the two size-1 cells. -/
def tripleLine : MolecularSystem :=
  { MolecularSystem.new with
    total_atom_count := 3
    all_atoms := [⟨0, 0, 0, 0⟩, ⟨1, 0, 0, 1⟩, ⟨2, 0, 0, 2⟩] }

/-- 2 particles whose y extent (10) exceeds their x extent (0). -/
def stretchY : MolecularSystem :=
  { MolecularSystem.new with
    total_atom_count := 2
    all_atoms := [⟨0, 0, 0, 0⟩, ⟨0, 10, 0, 1⟩] }

/-! ### Claim C7: aggression factor -/

/-- Loading records the requested count as the total dataset size,
whichever generator branch runs. -/
theorem load_atoms_total (s : MolecularSystem) (count : ℕ) :
    (s.load_atoms_from_file count).total_atom_count = count := by
  rw [MolecularSystem.load_atoms_from_file, MolecularSystem.read_all_atoms_from_source]
  by_cases h : count ≤ 2
  · rw [if_pos h]
    rfl
  · rw [if_neg h]
    rfl

/-- Claim C7: the aggression factor is the step function of the total
dataset size — 1.0 up to 1,000, then 2.0, 4.0, 8.0, 16.0 at each decade
boundary, 32.0 above 10,000,000 — and a load of 1,000,000 particles uses
aggression factor 8.0. -/
theorem aggression_factor_matches_spec :
    (∀ s : MolecularSystem, s.total_atom_count ≤ 1000 →
      s.calculate_aggression_factor = 1.0) ∧
    (∀ s : MolecularSystem, 1000 < s.total_atom_count → s.total_atom_count ≤ 10000 →
      s.calculate_aggression_factor = 2.0) ∧
    (∀ s : MolecularSystem, 10000 < s.total_atom_count → s.total_atom_count ≤ 100000 →
      s.calculate_aggression_factor = 4.0) ∧
    (∀ s : MolecularSystem, 100000 < s.total_atom_count → s.total_atom_count ≤ 1000000 →
      s.calculate_aggression_factor = 8.0) ∧
    (∀ s : MolecularSystem, 1000000 < s.total_atom_count → s.total_atom_count ≤ 10000000 →
      s.calculate_aggression_factor = 16.0) ∧
    (∀ s : MolecularSystem, 10000000 < s.total_atom_count →
      s.calculate_aggression_factor = 32.0) ∧
    (∀ s : MolecularSystem,
      (s.load_atoms_from_file 1000000).calculate_aggression_factor = 8.0) := by
  refine ⟨?_, ?_, ?_, ?_, ?_, ?_, ?_⟩
  · intro s h
    rw [MolecularSystem.calculate_aggression_factor, if_pos h]
  · intro s h1 h2
    rw [MolecularSystem.calculate_aggression_factor, if_neg (by omega), if_pos h2]
  · intro s h1 h2
    rw [MolecularSystem.calculate_aggression_factor, if_neg (by omega), if_neg (by omega),
      if_pos h2]
  · intro s h1 h2
    rw [MolecularSystem.calculate_aggression_factor, if_neg (by omega), if_neg (by omega),
      if_neg (by omega), if_pos h2]
  · intro s h1 h2
    rw [MolecularSystem.calculate_aggression_factor, if_neg (by omega), if_neg (by omega),
      if_neg (by omega), if_neg (by omega), if_pos h2]
  · intro s h1
    rw [MolecularSystem.calculate_aggression_factor, if_neg (by omega), if_neg (by omega),
      if_neg (by omega), if_neg (by omega), if_neg (by omega)]
  · intro s
    rw [MolecularSystem.calculate_aggression_factor, load_atoms_total]
    norm_num

/-- Witness for C7 at concrete dataset sizes. -/
theorem aggression_factor_matches_spec_witness :
    ({ MolecularSystem.new with total_atom_count := 500 } : MolecularSystem).calculate_aggression_factor = 1.0 ∧
    ({ MolecularSystem.new with total_atom_count := 5000 } : MolecularSystem).calculate_aggression_factor = 2.0 ∧
    ({ MolecularSystem.new with total_atom_count := 50000 } : MolecularSystem).calculate_aggression_factor = 4.0 ∧
    ({ MolecularSystem.new with total_atom_count := 1000000 } : MolecularSystem).calculate_aggression_factor = 8.0 ∧
    ({ MolecularSystem.new with total_atom_count := 5000000 } : MolecularSystem).calculate_aggression_factor = 16.0 ∧
    ({ MolecularSystem.new with total_atom_count := 20000000 } : MolecularSystem).calculate_aggression_factor = 32.0 ∧
    (MolecularSystem.new.load_atoms_from_file 1000000).calculate_aggression_factor = 8.0 :=
  ⟨aggression_factor_matches_spec.1 _ (by norm_num),
   aggression_factor_matches_spec.2.1 _ (by norm_num) (by norm_num),
   aggression_factor_matches_spec.2.2.1 _ (by norm_num) (by norm_num),
   aggression_factor_matches_spec.2.2.2.1 _ (by norm_num) (by norm_num),
   aggression_factor_matches_spec.2.2.2.2.1 _ (by norm_num) (by norm_num),
   aggression_factor_matches_spec.2.2.2.2.2.1 _ (by norm_num),
   aggression_factor_matches_spec.2.2.2.2.2.2 MolecularSystem.new⟩

/-! ### Cache behavior: shared helper -/

/-- If a query's fingerprint equals the previous query's fingerprint, the
second of two consecutive queries takes the cache-hit branch: the evaluator
does not run, and the cached records and state are returned unchanged. -/
theorem second_query_cache_hit (ops : FloatOps) (s : MolecularSystem)
    (c1 : Camera) (fov1 a1 n1 f1 : ℚ) (c2 : Camera) (fov2 a2 n2 f2 : ℚ)
    (h : MolecularSystem.calculate_camera_hash c2 fov2 a2 n2 f2 =
      MolecularSystem.calculate_camera_hash c1 fov1 a1 n1 f1) :
    ((s.get_visible_atoms_for_camera ops c1 fov1 a1 n1 f1).state.get_visible_atoms_for_camera
        ops c2 fov2 a2 n2 f2).evaluatorRan = false ∧
    ((s.get_visible_atoms_for_camera ops c1 fov1 a1 n1 f1).state.get_visible_atoms_for_camera
        ops c2 fov2 a2 n2 f2).result =
      (s.get_visible_atoms_for_camera ops c1 fov1 a1 n1 f1).result ∧
    ((s.get_visible_atoms_for_camera ops c1 fov1 a1 n1 f1).state.get_visible_atoms_for_camera
        ops c2 fov2 a2 n2 f2).state =
      (s.get_visible_atoms_for_camera ops c1 fov1 a1 n1 f1).state := by
  unfold MolecularSystem.get_visible_atoms_for_camera
  by_cases hc : MolecularSystem.calculate_camera_hash c1 fov1 a1 n1 f1 = s.current_camera_hash
  · simp [hc, h]
  · simp [hc, h]

/-! ### Claim C1: cache reuse on unchanged fingerprint -/

/-- Claim C1: two consecutive `get_visible_atoms_for_camera` calls whose
camera/fov inputs produce the same fingerprint, with no intervening update
or load, do not re-run the evaluator on the second call and return the same
cached sequence of visible records. -/
theorem consecutive_equal_fingerprint_queries_cached (ops : FloatOps)
    (s : MolecularSystem) (c1 : Camera) (fov1 a1 n1 f1 : ℚ)
    (c2 : Camera) (fov2 a2 n2 f2 : ℚ)
    (h : MolecularSystem.calculate_camera_hash c1 fov1 a1 n1 f1 =
      MolecularSystem.calculate_camera_hash c2 fov2 a2 n2 f2) :
    ((s.get_visible_atoms_for_camera ops c1 fov1 a1 n1 f1).state.get_visible_atoms_for_camera
        ops c2 fov2 a2 n2 f2).evaluatorRan = false ∧
    ((s.get_visible_atoms_for_camera ops c1 fov1 a1 n1 f1).state.get_visible_atoms_for_camera
        ops c2 fov2 a2 n2 f2).result =
      (s.get_visible_atoms_for_camera ops c1 fov1 a1 n1 f1).result :=
  ⟨(second_query_cache_hit ops s c1 fov1 a1 n1 f1 c2 fov2 a2 n2 f2 h.symm).1,
   (second_query_cache_hit ops s c1 fov1 a1 n1 f1 c2 fov2 a2 n2 f2 h.symm).2.1⟩

/-- Witness for C1: two identical queries on a fresh system. -/
theorem consecutive_equal_fingerprint_queries_cached_witness :
    ((MolecularSystem.new.get_visible_atoms_for_camera constOps Camera.new 1 1 (1/10)
        100).state.get_visible_atoms_for_camera constOps Camera.new 1 1 (1/10)
        100).evaluatorRan = false ∧
    ((MolecularSystem.new.get_visible_atoms_for_camera constOps Camera.new 1 1 (1/10)
        100).state.get_visible_atoms_for_camera constOps Camera.new 1 1 (1/10)
        100).result =
      (MolecularSystem.new.get_visible_atoms_for_camera constOps Camera.new 1 1 (1/10)
        100).result :=
  consecutive_equal_fingerprint_queries_cached constOps MolecularSystem.new
    Camera.new 1 1 (1/10) 100 Camera.new 1 1 (1/10) 100 rfl

/-! ### Claim C9: aspect, near and far never affect the fingerprint -/

/-- Claim C9: descriptors agreeing on camera position, target and fov but
differing arbitrarily in aspect ratio, near or far plane compute equal
fingerprints, so changing only aspect/near/far never invalidates the
visible-set cache (a consecutive query with only those changed serves the
cache without re-running the evaluator). -/
theorem aspect_near_far_never_invalidate :
    (∀ (camera : Camera) (fov a1 n1 f1 a2 n2 f2 : ℚ),
      MolecularSystem.calculate_camera_hash camera fov a1 n1 f1 =
        MolecularSystem.calculate_camera_hash camera fov a2 n2 f2) ∧
    (∀ (ops : FloatOps) (s : MolecularSystem) (camera : Camera) (fov a1 n1 f1 a2 n2 f2 : ℚ),
      ((s.get_visible_atoms_for_camera ops camera fov a1 n1 f1).state.get_visible_atoms_for_camera
          ops camera fov a2 n2 f2).evaluatorRan = false ∧
      ((s.get_visible_atoms_for_camera ops camera fov a1 n1 f1).state.get_visible_atoms_for_camera
          ops camera fov a2 n2 f2).result =
        (s.get_visible_atoms_for_camera ops camera fov a1 n1 f1).result) :=
  ⟨fun _ _ _ _ _ _ _ _ => rfl,
   fun ops s camera fov a1 n1 f1 a2 n2 f2 =>
    ⟨(second_query_cache_hit ops s camera fov a1 n1 f1 camera fov a2 n2 f2 rfl).1,
     (second_query_cache_hit ops s camera fov a1 n1 f1 camera fov a2 n2 f2 rfl).2.1⟩⟩

/-! ### Claim C4: loading zero particles -/

/-- Claim C4 is violated by the code: `load(0)` stores one hydrogen atom at
the origin (the `count <= 2` special case also fires for `count = 0`), so
the downstream queries return non-empty sequences, while
`get_total_atom_count` still reports 0. -/
theorem load_zero_stores_one_atom :
    (MolecularSystem.new.load_atoms_from_file 0).all_atoms =
      [{ x := 0, y := 0, z := 0, element := 0 }] ∧
    (MolecularSystem.new.load_atoms_from_file 0).get_all_atom_positions = [0, 0, 0, 0] ∧
    (MolecularSystem.new.load_atoms_from_file 0).get_spatial_chunks 1 =
      [0.5, 0.5, 0.5, 1, 1, 0, 0, 0] ∧
    (MolecularSystem.new.load_atoms_from_file 0).get_total_atom_count = 0 := by
  have hatoms : (MolecularSystem.new.load_atoms_from_file 0).all_atoms =
      [{ x := 0, y := 0, z := 0, element := 0 }] := by
    simp [MolecularSystem.load_atoms_from_file, MolecularSystem.read_all_atoms_from_source,
      MolecularSystem.invalidate_camera_cache]
    norm_num
  refine ⟨hatoms, ?_, ?_, ?_⟩
  · simp [MolecularSystem.get_all_atom_positions, hatoms]
  · simp only [MolecularSystem.get_spatial_chunks, hatoms]
    have h12 : |(1:ℚ) / 2| ≤ 1 / 2 := by
      rw [abs_of_nonneg (by norm_num : (0:ℚ) ≤ 1 / 2)]
    norm_num [MolecularSystem.atomFoldMin, MolecularSystem.atomFoldMax,
      MolecularSystem.chunkCellCount, MolecularSystem.withinChunk,
      List.range_succ, List.filter_cons, List.filter_nil, h12]
  · simp [MolecularSystem.get_total_atom_count, MolecularSystem.load_atoms_from_file,
      MolecularSystem.read_all_atoms_from_source, MolecularSystem.invalidate_camera_cache]

/-! ### Claim C5: spatial chunks over the 2×2×2 cube corners -/

set_option maxHeartbeats 2000000 in
/-- Evaluation: over the 8 cube corners with `chunk_size = 2` the grid is
1×1×1 (x extent 2, so `ceil(2/2) = 1` cell per axis), and the single cell
centered at the origin counts all 8 atoms. -/
theorem cube8_spatial_chunks : cube8.get_spatial_chunks 2 = [0, 0, 0, 2, 8, 0, 0, 0] := by
  simp only [MolecularSystem.get_spatial_chunks, cube8, MolecularSystem.new]
  norm_num [MolecularSystem.atomFoldMin, MolecularSystem.atomFoldMax,
    MolecularSystem.chunkCellCount, MolecularSystem.withinChunk,
    List.range_succ, List.filter_cons, List.filter_nil, min_def, max_def, abs_le]

/-- Claim C5 counterexample: the flattened summary has 8 floats (a single
record), not the 8 records × 8 floats the claim requires. -/
theorem spatial_chunks_cube8_not_eight_cells :
    (cube8.get_spatial_chunks 2).length ≠ 8 * 8 := by
  rw [cube8_spatial_chunks]
  norm_num

/-- Claim C5 amended: over 8 particles at the corners of a 2×2×2 cube with
`chunk_size = 2`, the summary emits exactly one non-empty cell record
(covering the whole box) with atom count 8. -/
theorem spatial_chunks_cube8_single_cell :
    cube8.get_spatial_chunks 2 = [0, 0, 0, 2, 8, 0, 0, 0] ∧
    (cube8.get_spatial_chunks 2).length = 8 :=
  ⟨cube8_spatial_chunks, by rw [cube8_spatial_chunks]; rfl⟩

/-! ### Claim C10: boundary atoms are counted in both adjacent cells -/

set_option maxHeartbeats 4000000 in
/-- Evaluation: three collinear atoms at x = 0, 1, 2 with `chunk_size = 1`
give a 2×2×2 grid with two non-empty cells, each counting 2 atoms. -/
theorem tripleLine_spatial_chunks : tripleLine.get_spatial_chunks 1 =
    [0.5, 0.5, 0.5, 1, 2, 0, 0, 0, 1.5, 0.5, 0.5, 1, 2, 0, 0, 0] := by
  simp only [MolecularSystem.get_spatial_chunks, tripleLine, MolecularSystem.new]
  norm_num [MolecularSystem.atomFoldMin, MolecularSystem.atomFoldMax,
    MolecularSystem.chunkCellCount, MolecularSystem.withinChunk,
    show Int.toNat 2 = 2 from rfl,
    List.range_succ, List.filter_cons, List.filter_nil, min_def, max_def, abs_le]

/-- Claim C10: the atom at x = 1 lies exactly `chunk_size * 0.5` from both
emitted cell centers (0.5 and 1.5), passes the inclusive in-chunk test for
both cells, and the per-cell atom counts sum to 4 > 3 stored particles. -/
theorem boundary_atom_double_counted :
    |(1:ℚ) - 0.5| = 1 * 0.5 ∧ |(1:ℚ) - 1.5| = 1 * 0.5 ∧
    MolecularSystem.withinChunk 1 0.5 0.5 0.5 ⟨1, 0, 0, 1⟩ = true ∧
    MolecularSystem.withinChunk 1 1.5 0.5 0.5 ⟨1, 0, 0, 1⟩ = true ∧
    tripleLine.get_spatial_chunks 1 =
      [0.5, 0.5, 0.5, 1, 2, 0, 0, 0, 1.5, 0.5, 0.5, 1, 2, 0, 0, 0] ∧
    MolecularSystem.chunkCellCount tripleLine.all_atoms 1 0.5 0.5 0.5 +
      MolecularSystem.chunkCellCount tripleLine.all_atoms 1 1.5 0.5 0.5 >
      tripleLine.all_atoms.length := by
  refine ⟨by norm_num [abs_le], by norm_num [abs_le], ?_, ?_, tripleLine_spatial_chunks, ?_⟩
  · simp only [MolecularSystem.withinChunk, Bool.and_eq_true, decide_eq_true_eq]
    norm_num [abs_le]
  · simp only [MolecularSystem.withinChunk, Bool.and_eq_true, decide_eq_true_eq]
    norm_num [abs_le]
  · norm_num [tripleLine, MolecularSystem.new, MolecularSystem.chunkCellCount,
      MolecularSystem.withinChunk, List.filter_cons, List.filter_nil, abs_le]

/-! ### Claim C6: grid coverage of the particle store -/

/-- Folding `min` over a list never exceeds the initial value. -/
theorem foldl_min_le_init (f : RawAtom → ℚ) (l : List RawAtom) (init : ℚ) :
    l.foldl (fun m a => min m (f a)) init ≤ init := by
  induction l generalizing init with
  | nil => exact le_refl _
  | cons b t ih => exact le_trans (ih (min init (f b))) (min_le_left _ _)

/-- Folding `min` over a list is at most each member's value. -/
theorem foldl_min_le_mem (f : RawAtom → ℚ) (l : List RawAtom) (init : ℚ)
    (a : RawAtom) (ha : a ∈ l) :
    l.foldl (fun m a => min m (f a)) init ≤ f a := by
  induction l generalizing init with
  | nil => cases ha
  | cons b t ih =>
    rcases List.mem_cons.mp ha with hab | hat
    · subst hab
      exact le_trans (foldl_min_le_init f t (min init (f a))) (min_le_right _ _)
    · exact ih (min init (f b)) hat

/-- Folding `max` over a list is at least the initial value. -/
theorem init_le_foldl_max (f : RawAtom → ℚ) (l : List RawAtom) (init : ℚ) :
    init ≤ l.foldl (fun m a => max m (f a)) init := by
  induction l generalizing init with
  | nil => exact le_refl _
  | cons b t ih => exact le_trans (le_max_left _ _) (ih (max init (f b)))

/-- Folding `max` over a list is at least each member's value. -/
theorem mem_le_foldl_max (f : RawAtom → ℚ) (l : List RawAtom) (init : ℚ)
    (a : RawAtom) (ha : a ∈ l) :
    f a ≤ l.foldl (fun m a => max m (f a)) init := by
  induction l generalizing init with
  | nil => cases ha
  | cons b t ih =>
    rcases List.mem_cons.mp ha with hab | hat
    · subst hab
      exact le_trans (le_max_right _ _) (init_le_foldl_max f t (max init (f a)))
    · exact ih (max init (f b)) hat

/-- The bounding-box minimum is a lower bound on every atom in the list. -/
theorem atomFoldMin_le (f : RawAtom → ℚ) (a0 : RawAtom) (rest : List RawAtom)
    (a : RawAtom) (ha : a ∈ a0 :: rest) : MolecularSystem.atomFoldMin f a0 rest ≤ f a := by
  rcases List.mem_cons.mp ha with hab | hat
  · subst hab
    exact foldl_min_le_init f rest (f a)
  · exact foldl_min_le_mem f rest (f a0) a hat

/-- The bounding-box maximum is an upper bound on every atom in the list. -/
theorem le_atomFoldMax (f : RawAtom → ℚ) (a0 : RawAtom) (rest : List RawAtom)
    (a : RawAtom) (ha : a ∈ a0 :: rest) : f a ≤ MolecularSystem.atomFoldMax f a0 rest := by
  rcases List.mem_cons.mp ha with hab | hat
  · subst hab
    exact init_le_foldl_max f rest (f a)
  · exact mem_le_foldl_max f rest (f a0) a hat

/-- One-dimensional grid coverage: a value between `lo` and `lo + n * cs`
is within `cs / 2` of the center of one of the `n` cells of width `cs`
starting at `lo` (boundary values land on the inclusive edge). -/
theorem grid_cover (cs : ℚ) (hcs : 0 < cs) (lo v : ℚ) (n : ℕ) (hn : 0 < n)
    (h1 : lo ≤ v) (h2 : v ≤ lo + (n : ℚ) * cs) :
    ∃ i : ℕ, i < n ∧ |v - (lo + ((i : ℚ) + 0.5) * cs)| ≤ cs * 0.5 := by
  set t := (v - lo) / cs with ht
  have ht0 : 0 ≤ t := div_nonneg (by linarith) hcs.le
  have htcs : t * cs = v - lo := div_mul_cancel₀ _ (ne_of_gt hcs)
  by_cases hm : ⌊t⌋₊ < n
  · refine ⟨⌊t⌋₊, hm, ?_⟩
    have hfl : (⌊t⌋₊ : ℚ) ≤ t := Nat.floor_le ht0
    have hfu : t < (⌊t⌋₊ : ℚ) + 1 := Nat.lt_floor_add_one t
    have h3 : (⌊t⌋₊ : ℚ) * cs ≤ v - lo := by
      rw [← htcs]
      exact mul_le_mul_of_nonneg_right hfl hcs.le
    have h4 : v - lo < ((⌊t⌋₊ : ℚ) + 1) * cs := by
      rw [← htcs]
      exact mul_lt_mul_of_pos_right hfu hcs
    rw [abs_le]
    constructor <;> nlinarith
  · push_neg at hm
    have htn : (n : ℚ) ≤ t := le_trans (by exact_mod_cast hm) (Nat.floor_le ht0)
    have hveq : v = lo + (n : ℚ) * cs := by
      have : (n : ℚ) * cs ≤ t * cs := mul_le_mul_of_nonneg_right htn hcs.le
      rw [htcs] at this
      linarith
    refine ⟨n - 1, Nat.sub_lt hn one_pos, ?_⟩
    have hcast : ((n - 1 : ℕ) : ℚ) = (n : ℚ) - 1 := by
      rw [Nat.cast_sub hn]
      norm_num
    rw [hveq, hcast, abs_le]
    constructor <;> nlinarith

/-- Claim C6 counterexample: with atoms at (0,0,0) and (0,10,0) and
`chunk_size = 1`, the per-axis cell count is derived from the x extent (0),
giving a single cell that misses the atom at y = 10: the emitted counts sum
to 1 although 2 particles are stored, and the missed atom fails the
in-chunk test of the only cell. -/
theorem spatial_chunks_miss_tall_atom :
    stretchY.all_atoms.length = 2 ∧
    stretchY.get_spatial_chunks 1 = [0.5, 0.5, 0.5, 1, 1, 0, 0, 0] ∧
    MolecularSystem.withinChunk 1 0.5 0.5 0.5 ⟨0, 10, 0, 1⟩ = false := by
  refine ⟨rfl, ?_, ?_⟩
  · simp only [MolecularSystem.get_spatial_chunks, stretchY, MolecularSystem.new]
    norm_num [MolecularSystem.atomFoldMin, MolecularSystem.atomFoldMax,
      MolecularSystem.chunkCellCount, MolecularSystem.withinChunk,
      List.range_succ, List.filter_cons, List.filter_nil, min_def, max_def, abs_le]
  · rw [Bool.eq_false_iff]
    simp only [MolecularSystem.withinChunk, ne_eq, Bool.and_eq_true, decide_eq_true_eq]
    norm_num [abs_le]

/-- Claim C6 (amended): the per-axis cell count of `get_spatial_chunks` is
derived from the x extent of the bounding box alone, so whenever the y and
z extents do not exceed the x extent (and the store is non-empty and the
chunk size positive), every stored particle falls inside at least one grid
cell and that cell's emitted atom count is positive. -/
theorem spatial_grid_covers_atoms_when_x_extent_dominates
    (s : MolecularSystem) (cs : ℚ) (a0 : RawAtom) (rest : List RawAtom)
    (hatoms : s.all_atoms = a0 :: rest) (hcs : 0 < cs)
    (hy : MolecularSystem.atomFoldMax (fun a => a.y) a0 rest -
        MolecularSystem.atomFoldMin (fun a => a.y) a0 rest ≤
      MolecularSystem.atomFoldMax (fun a => a.x) a0 rest -
        MolecularSystem.atomFoldMin (fun a => a.x) a0 rest)
    (hz : MolecularSystem.atomFoldMax (fun a => a.z) a0 rest -
        MolecularSystem.atomFoldMin (fun a => a.z) a0 rest ≤
      MolecularSystem.atomFoldMax (fun a => a.x) a0 rest -
        MolecularSystem.atomFoldMin (fun a => a.x) a0 rest) :
    ∀ a ∈ s.all_atoms, ∃ i j k : ℕ,
      i < max (⌈(MolecularSystem.atomFoldMax (fun a => a.x) a0 rest -
          MolecularSystem.atomFoldMin (fun a => a.x) a0 rest) / cs⌉.toNat) 1 ∧
      j < max (⌈(MolecularSystem.atomFoldMax (fun a => a.x) a0 rest -
          MolecularSystem.atomFoldMin (fun a => a.x) a0 rest) / cs⌉.toNat) 1 ∧
      k < max (⌈(MolecularSystem.atomFoldMax (fun a => a.x) a0 rest -
          MolecularSystem.atomFoldMin (fun a => a.x) a0 rest) / cs⌉.toNat) 1 ∧
      MolecularSystem.withinChunk cs
        (MolecularSystem.atomFoldMin (fun a => a.x) a0 rest + ((i : ℚ) + 0.5) * cs)
        (MolecularSystem.atomFoldMin (fun a => a.y) a0 rest + ((j : ℚ) + 0.5) * cs)
        (MolecularSystem.atomFoldMin (fun a => a.z) a0 rest + ((k : ℚ) + 0.5) * cs) a = true ∧
      0 < MolecularSystem.chunkCellCount s.all_atoms cs
        (MolecularSystem.atomFoldMin (fun a => a.x) a0 rest + ((i : ℚ) + 0.5) * cs)
        (MolecularSystem.atomFoldMin (fun a => a.y) a0 rest + ((j : ℚ) + 0.5) * cs)
        (MolecularSystem.atomFoldMin (fun a => a.z) a0 rest + ((k : ℚ) + 0.5) * cs) := by
  intro a ha
  have ha' : a ∈ a0 :: rest := hatoms ▸ ha
  have hax1 : MolecularSystem.atomFoldMin (fun a => a.x) a0 rest ≤ a.x :=
    atomFoldMin_le _ a0 rest a ha'
  have hax2 : a.x ≤ MolecularSystem.atomFoldMax (fun a => a.x) a0 rest :=
    le_atomFoldMax _ a0 rest a ha'
  have hay1 : MolecularSystem.atomFoldMin (fun a => a.y) a0 rest ≤ a.y :=
    atomFoldMin_le _ a0 rest a ha'
  have hay2 : a.y ≤ MolecularSystem.atomFoldMax (fun a => a.y) a0 rest :=
    le_atomFoldMax _ a0 rest a ha'
  have haz1 : MolecularSystem.atomFoldMin (fun a => a.z) a0 rest ≤ a.z :=
    atomFoldMin_le _ a0 rest a ha'
  have haz2 : a.z ≤ MolecularSystem.atomFoldMax (fun a => a.z) a0 rest :=
    le_atomFoldMax _ a0 rest a ha'
  set minx := MolecularSystem.atomFoldMin (fun a => a.x) a0 rest with hminx
  set maxx := MolecularSystem.atomFoldMax (fun a => a.x) a0 rest with hmaxx
  set miny := MolecularSystem.atomFoldMin (fun a => a.y) a0 rest with hminy
  set maxy := MolecularSystem.atomFoldMax (fun a => a.y) a0 rest with hmaxy
  set minz := MolecularSystem.atomFoldMin (fun a => a.z) a0 rest with hminz
  set maxz := MolecularSystem.atomFoldMax (fun a => a.z) a0 rest with hmaxz
  set n := max (⌈(maxx - minx) / cs⌉.toNat) 1 with hn
  have hn0 : 0 < n := lt_of_lt_of_le one_pos (le_max_right _ _)
  have h0 : (0 : ℚ) ≤ (maxx - minx) / cs := div_nonneg (by linarith) hcs.le
  have h2 : (⌈(maxx - minx) / cs⌉ : ℚ) ≤ (n : ℚ) := by
    have hle : ⌈(maxx - minx) / cs⌉ ≤ (n : ℤ) := by
      rw [← Int.toNat_of_nonneg (Int.ceil_nonneg h0)]
      exact_mod_cast le_max_left (⌈(maxx - minx) / cs⌉.toNat) 1
    exact_mod_cast hle
  have h3 : (maxx - minx) / cs ≤ (n : ℚ) := le_trans (Int.le_ceil _) h2
  have hnq : maxx - minx ≤ (n : ℚ) * cs := by
    rw [div_le_iff₀ hcs] at h3
    linarith
  obtain ⟨i, hi, hxi⟩ := grid_cover cs hcs minx a.x n hn0 hax1 (by linarith)
  obtain ⟨j, hj, hyj⟩ := grid_cover cs hcs miny a.y n hn0 hay1 (by linarith)
  obtain ⟨k, hk, hzk⟩ := grid_cover cs hcs minz a.z n hn0 haz1 (by linarith)
  have hwithin : MolecularSystem.withinChunk cs (minx + ((i : ℚ) + 0.5) * cs)
      (miny + ((j : ℚ) + 0.5) * cs) (minz + ((k : ℚ) + 0.5) * cs) a = true := by
    simp only [MolecularSystem.withinChunk, Bool.and_eq_true, decide_eq_true_eq]
    exact ⟨⟨hxi, hyj⟩, hzk⟩
  refine ⟨i, j, k, hi, hj, hk, hwithin, ?_⟩
  have hmem : a ∈ s.all_atoms.filter (MolecularSystem.withinChunk cs
      (minx + ((i : ℚ) + 0.5) * cs) (miny + ((j : ℚ) + 0.5) * cs)
      (minz + ((k : ℚ) + 0.5) * cs)) :=
    List.mem_filter.mpr ⟨ha, hwithin⟩
  exact List.length_pos.mpr (List.ne_nil_of_mem hmem)

/-- Witness for the amended C6 at the three collinear atoms with
`chunk_size = 1` and the atom at the origin. -/
theorem spatial_grid_covers_atoms_when_x_extent_dominates_witness :
    ∃ i j k : ℕ,
      i < max (⌈(MolecularSystem.atomFoldMax (fun a => a.x) ⟨0, 0, 0, 0⟩ [⟨1, 0, 0, 1⟩, ⟨2, 0, 0, 2⟩] -
          MolecularSystem.atomFoldMin (fun a => a.x) ⟨0, 0, 0, 0⟩ [⟨1, 0, 0, 1⟩, ⟨2, 0, 0, 2⟩]) / 1⌉.toNat) 1 ∧
      j < max (⌈(MolecularSystem.atomFoldMax (fun a => a.x) ⟨0, 0, 0, 0⟩ [⟨1, 0, 0, 1⟩, ⟨2, 0, 0, 2⟩] -
          MolecularSystem.atomFoldMin (fun a => a.x) ⟨0, 0, 0, 0⟩ [⟨1, 0, 0, 1⟩, ⟨2, 0, 0, 2⟩]) / 1⌉.toNat) 1 ∧
      k < max (⌈(MolecularSystem.atomFoldMax (fun a => a.x) ⟨0, 0, 0, 0⟩ [⟨1, 0, 0, 1⟩, ⟨2, 0, 0, 2⟩] -
          MolecularSystem.atomFoldMin (fun a => a.x) ⟨0, 0, 0, 0⟩ [⟨1, 0, 0, 1⟩, ⟨2, 0, 0, 2⟩]) / 1⌉.toNat) 1 ∧
      MolecularSystem.withinChunk 1
        (MolecularSystem.atomFoldMin (fun a => a.x) ⟨0, 0, 0, 0⟩ [⟨1, 0, 0, 1⟩, ⟨2, 0, 0, 2⟩] + ((i : ℚ) + 0.5) * 1)
        (MolecularSystem.atomFoldMin (fun a => a.y) ⟨0, 0, 0, 0⟩ [⟨1, 0, 0, 1⟩, ⟨2, 0, 0, 2⟩] + ((j : ℚ) + 0.5) * 1)
        (MolecularSystem.atomFoldMin (fun a => a.z) ⟨0, 0, 0, 0⟩ [⟨1, 0, 0, 1⟩, ⟨2, 0, 0, 2⟩] + ((k : ℚ) + 0.5) * 1)
        ⟨0, 0, 0, 0⟩ = true ∧
      0 < MolecularSystem.chunkCellCount tripleLine.all_atoms 1
        (MolecularSystem.atomFoldMin (fun a => a.x) ⟨0, 0, 0, 0⟩ [⟨1, 0, 0, 1⟩, ⟨2, 0, 0, 2⟩] + ((i : ℚ) + 0.5) * 1)
        (MolecularSystem.atomFoldMin (fun a => a.y) ⟨0, 0, 0, 0⟩ [⟨1, 0, 0, 1⟩, ⟨2, 0, 0, 2⟩] + ((j : ℚ) + 0.5) * 1)
        (MolecularSystem.atomFoldMin (fun a => a.z) ⟨0, 0, 0, 0⟩ [⟨1, 0, 0, 1⟩, ⟨2, 0, 0, 2⟩] + ((k : ℚ) + 0.5) * 1) :=
  spatial_grid_covers_atoms_when_x_extent_dominates tripleLine 1 ⟨0, 0, 0, 0⟩
    [⟨1, 0, 0, 1⟩, ⟨2, 0, 0, 2⟩] rfl (by norm_num)
    (by norm_num [MolecularSystem.atomFoldMin, MolecularSystem.atomFoldMax, min_def, max_def])
    (by norm_num [MolecularSystem.atomFoldMin, MolecularSystem.atomFoldMax, min_def, max_def])
    ⟨0, 0, 0, 0⟩ (by simp [tripleLine, MolecularSystem.new])

/-! ### Claim C2: invalidation on tick -/

/-- Claim C2 counterexample: the all-zero observer descriptor has
fingerprint 0, which equals the sentinel written by `update`'s cache
invalidation, so after a tick the query does not re-run the evaluator and
returns the cleared (empty) cache even though the store is non-empty and a
re-evaluation would produce a record. -/
theorem tick_then_zero_fingerprint_query_not_reevaluated :
    MolecularSystem.calculate_camera_hash ⟨0, 0, 0, 0, 0, 0⟩ 0 1 (1/10) 100 = 0 ∧
    (((MolecularSystem.new.load_atoms_from_file 1).update 1).get_visible_atoms_for_camera
        constOps ⟨0, 0, 0, 0, 0, 0⟩ 0 1 (1/10) 100).evaluatorRan = false ∧
    (((MolecularSystem.new.load_atoms_from_file 1).update 1).get_visible_atoms_for_camera
        constOps ⟨0, 0, 0, 0, 0, 0⟩ 0 1 (1/10) 100).result = [] ∧
    ((MolecularSystem.new.load_atoms_from_file 1).update 1).recalculate_visibility_for_camera
        constOps ⟨0, 0, 0, 0, 0, 0⟩ 0 1 (1/10) 100 ≠ [] := by
  have h0 : MolecularSystem.calculate_camera_hash ⟨0, 0, 0, 0, 0, 0⟩ 0 1 (1/10) 100 = 0 := by
    norm_num [MolecularSystem.calculate_camera_hash, f32ToU64]
  have hatoms : ((MolecularSystem.new.load_atoms_from_file 1).update 1).all_atoms =
      [{ x := 0, y := 0, z := 0, element := 0 }] := by
    norm_num [MolecularSystem.load_atoms_from_file, MolecularSystem.read_all_atoms_from_source,
      MolecularSystem.invalidate_camera_cache, MolecularSystem.update, MolecularSystem.new]
  refine ⟨h0, ?_, ?_, ?_⟩
  · unfold MolecularSystem.get_visible_atoms_for_camera
    simp only [h0]
    simp [MolecularSystem.update, MolecularSystem.invalidate_camera_cache]
  · unfold MolecularSystem.get_visible_atoms_for_camera
    simp only [h0]
    simp [MolecularSystem.update, MolecularSystem.invalidate_camera_cache]
  · rw [MolecularSystem.recalculate_visibility_for_camera, hatoms]
    norm_num [constOps, MolecularSystem.calculate_aggression_factor,
      MolecularSystem.load_atoms_from_file, MolecularSystem.read_all_atoms_from_source,
      MolecularSystem.invalidate_camera_cache, MolecularSystem.update, MolecularSystem.new,
      List.filterMap_cons]

/-- Claim C2 (amended): after `update(delta)` the cached fingerprint is the
sentinel 0, so a following query whose descriptor fingerprint is non-zero
always re-runs the evaluator, and the returned records are exactly the
evaluator's output on the post-tick state, whose time has advanced by
`delta * animation_speed`.  (Descriptors whose fingerprint is 0 — e.g. the
all-zero camera — are the exception: they collide with the sentinel.) -/
theorem update_then_nonzero_fingerprint_query_reevaluates
    (ops : FloatOps) (s : MolecularSystem) (delta : ℚ) (camera : Camera)
    (fov aspect near far : ℚ)
    (h : MolecularSystem.calculate_camera_hash camera fov aspect near far ≠ 0) :
    ((s.update delta).get_visible_atoms_for_camera ops camera fov aspect near far).evaluatorRan
        = true ∧
    ((s.update delta).get_visible_atoms_for_camera ops camera fov aspect near far).result =
      (s.update delta).recalculate_visibility_for_camera ops camera fov aspect near far ∧
    (s.update delta).time = s.time + delta * s.animation_speed := by
  refine ⟨?_, ?_, rfl⟩
  · simp [MolecularSystem.get_visible_atoms_for_camera, MolecularSystem.update,
      MolecularSystem.invalidate_camera_cache, h]
  · simp [MolecularSystem.get_visible_atoms_for_camera, MolecularSystem.update,
      MolecularSystem.invalidate_camera_cache, h]

/-- Witness for the amended C2: a tick followed by a query from the default
camera (non-zero fingerprint) on a one-atom system. -/
theorem update_then_nonzero_fingerprint_query_reevaluates_witness :
    (((MolecularSystem.new.load_atoms_from_file 1).update 1).get_visible_atoms_for_camera
        constOps Camera.new 1 1 (1/10) 100).evaluatorRan = true ∧
    (((MolecularSystem.new.load_atoms_from_file 1).update 1).get_visible_atoms_for_camera
        constOps Camera.new 1 1 (1/10) 100).result =
      ((MolecularSystem.new.load_atoms_from_file 1).update 1).recalculate_visibility_for_camera
        constOps Camera.new 1 1 (1/10) 100 ∧
    ((MolecularSystem.new.load_atoms_from_file 1).update 1).time =
      (MolecularSystem.new.load_atoms_from_file 1).time +
        1 * (MolecularSystem.new.load_atoms_from_file 1).animation_speed :=
  update_then_nonzero_fingerprint_query_reevaluates constOps
    (MolecularSystem.new.load_atoms_from_file 1) 1 Camera.new 1 1 (1/10) 100
    (by norm_num [MolecularSystem.calculate_camera_hash, f32ToU64, Camera.new, min_def]
        decide)

/-! ### Claim C8: the two-particle load and the legacy animated offset -/

/-- Claim C8 counterexample: with `sin(time) = 1` the legacy accessor
reports particle 1 at `x = 0.92 + 0.18 * (1 + 1) * 0.5 = 1.10`, not the
claimed `0.92 + 0.09`. -/
theorem get_atom_data_offset_at_sin_one_counterexample :
    oneSinOps.sin (((MolecularSystem.new.load_atoms_from_file 2).update 1).time) = 1 ∧
    ((((MolecularSystem.new.load_atoms_from_file 2).update 1).get_atom_data oneSinOps 1).map
        (fun r => r.x)) ≠ some (0.92 + 0.09) := by
  constructor
  · rfl
  · have hatoms : (((MolecularSystem.new.load_atoms_from_file 2).update 1)).all_atoms =
        [{ x := 0, y := 0, z := 0, element := 0 }, { x := 0.92, y := 0, z := 0, element := 1 }] := by
      norm_num [MolecularSystem.load_atoms_from_file, MolecularSystem.read_all_atoms_from_source,
        MolecularSystem.invalidate_camera_cache, MolecularSystem.update, MolecularSystem.new]
    have htot : (((MolecularSystem.new.load_atoms_from_file 2).update 1)).total_atom_count = 2 := rfl
    rw [MolecularSystem.get_atom_data, hatoms, htot]
    norm_num [oneSinOps]

/-- Claim C8 (amended): loading 2 particles puts particle 0 at the origin
with element 0 and particle 1 at (0.92, 0, 0) with element 1, at time 0;
and at any reachable time with `sin(time) = 1` the legacy accessor reports
particle 1's x as its base plus `0.18 * (sin(time) + 1) * 0.5 = 0.18`
(the code halves the sine shifted by one, so the offset at `sin = 1` is
0.18, not 0.09). -/
theorem hf_load_and_animated_offset (ops : FloatOps) (delta : ℚ)
    (hsin : ops.sin (((MolecularSystem.new.load_atoms_from_file 2).update delta).time) = 1) :
    (MolecularSystem.new.load_atoms_from_file 2).all_atoms =
      [{ x := 0, y := 0, z := 0, element := 0 }, { x := 0.92, y := 0, z := 0, element := 1 }] ∧
    (MolecularSystem.new.load_atoms_from_file 2).time = 0 ∧
    ((((MolecularSystem.new.load_atoms_from_file 2).update delta).get_atom_data ops 1).map
        (fun r => r.x)) = some (0.92 + 0.18) := by
  have hatoms : (MolecularSystem.new.load_atoms_from_file 2).all_atoms =
      [{ x := 0, y := 0, z := 0, element := 0 }, { x := 0.92, y := 0, z := 0, element := 1 }] := by
    norm_num [MolecularSystem.load_atoms_from_file, MolecularSystem.read_all_atoms_from_source,
      MolecularSystem.invalidate_camera_cache, MolecularSystem.new]
  refine ⟨hatoms, ?_, ?_⟩
  · norm_num [MolecularSystem.load_atoms_from_file, MolecularSystem.read_all_atoms_from_source,
      MolecularSystem.invalidate_camera_cache, MolecularSystem.new]
  have hatoms' : (((MolecularSystem.new.load_atoms_from_file 2).update delta)).all_atoms =
      [{ x := 0, y := 0, z := 0, element := 0 }, { x := 0.92, y := 0, z := 0, element := 1 }] := by
    rw [MolecularSystem.update, MolecularSystem.invalidate_camera_cache]
    exact hatoms
  have htot : (((MolecularSystem.new.load_atoms_from_file 2).update delta)).total_atom_count = 2 :=
    rfl
  rw [MolecularSystem.get_atom_data, hatoms', htot, hsin]
  norm_num

/-- Witness for the amended C8 with `sin` constantly 1 and a tick of 1. -/
theorem hf_load_and_animated_offset_witness :
    (MolecularSystem.new.load_atoms_from_file 2).all_atoms =
      [{ x := 0, y := 0, z := 0, element := 0 }, { x := 0.92, y := 0, z := 0, element := 1 }] ∧
    (MolecularSystem.new.load_atoms_from_file 2).time = 0 ∧
    ((((MolecularSystem.new.load_atoms_from_file 2).update 1).get_atom_data oneSinOps 1).map
        (fun r => r.x)) = some (0.92 + 0.18) :=
  hf_load_and_animated_offset oneSinOps 1 rfl

/-! ### Claim C3: fingerprint sensitivity to single-field changes -/

/-- Xor with a fixed right operand is injective. -/
theorem xor_ne_right {a b : ℕ} (h : a ≠ b) (r : ℕ) : a ^^^ r ≠ b ^^^ r := by
  intro heq
  apply h
  have h2 : a ^^^ r ^^^ r = b ^^^ r ^^^ r := by rw [heq]
  simpa [Nat.xor_assoc] using h2

/-- Xor with a fixed left operand is injective. -/
theorem xor_ne_left {a b : ℕ} (r : ℕ) (h : a ≠ b) : r ^^^ a ≠ r ^^^ b := by
  intro heq
  apply h
  have h2 : r ^^^ (r ^^^ a) = r ^^^ (r ^^^ b) := by rw [heq]
  simpa [← Nat.xor_assoc] using h2

/-- The saturating cast is bounded by its (non-negative) argument. -/
theorem f32ToU64_le_self {a : ℚ} (ha : 0 ≤ a) : (f32ToU64 a : ℚ) ≤ a := by
  unfold f32ToU64
  exact le_trans (by exact_mod_cast min_le_left ⌊a⌋₊ (2 ^ 64 - 1)) (Nat.floor_le ha)

/-- The saturating cast stays below any bound above its argument. -/
theorem f32ToU64_lt {a : ℚ} {B : ℕ} (ha : 0 ≤ a) (hB : a < (B : ℚ)) : f32ToU64 a < B := by
  have h1 : (f32ToU64 a : ℚ) < (B : ℚ) := lt_of_le_of_lt (f32ToU64_le_self ha) hB
  exact_mod_cast h1

/-- Below the saturation bound, a gap of more than 1 is preserved by the
saturating cast: the truncated values differ strictly. -/
theorem f32ToU64_lt_of_gap {a b : ℚ} (ha : 0 ≤ a) (hab : a + 1 < b)
    (hb : b < ((2 ^ 64 - 1 : ℕ) : ℚ)) : f32ToU64 a < f32ToU64 b := by
  have h0b : (0 : ℚ) ≤ b := le_trans (by linarith) hab.le
  have hfa : ⌊a⌋₊ < 2 ^ 64 - 1 := (Nat.floor_lt ha).mpr (by linarith)
  have hfb : ⌊b⌋₊ < 2 ^ 64 - 1 := (Nat.floor_lt h0b).mpr hb
  have hlt : ⌊a⌋₊ < ⌊b⌋₊ := by
    have hstep : ⌊a⌋₊ + 1 ≤ ⌊b⌋₊ := by
      apply Nat.le_floor
      push_cast
      have := Nat.floor_le ha
      linarith
    omega
  unfold f32ToU64
  rw [min_eq_left hfa.le, min_eq_left hfb.le]
  exact hlt

/-- Two non-negative values below the saturation bound whose gap exceeds 1
get distinct saturating casts. -/
theorem f32ToU64_ne_of_abs_gap {a b : ℚ} (ha : 0 ≤ a) (hb : 0 ≤ b)
    (haM : a < ((2 ^ 64 - 1 : ℕ) : ℚ)) (hbM : b < ((2 ^ 64 - 1 : ℕ) : ℚ))
    (hgap : 1 < |b - a|) : f32ToU64 a ≠ f32ToU64 b := by
  rcases le_total a b with hab | hba
  · have habs : |b - a| = b - a := abs_of_nonneg (by linarith)
    rw [habs] at hgap
    exact Nat.ne_of_lt (f32ToU64_lt_of_gap ha (by linarith) hbM)
  · have habs : |b - a| = a - b := by
      rw [abs_sub_comm]
      exact abs_of_nonneg (by linarith)
    rw [habs] at hgap
    exact (Nat.ne_of_lt (f32ToU64_lt_of_gap hb (by linarith) haM)).symm

/-- Left-shifting (multiplying by `2^s` mod `2^64`) is injective on values
below `2^(64-s)`. -/
theorem shifted_ne {q1 q2 : ℕ} (s : ℕ) (hs : s ≤ 64) (h1 : q1 < 2 ^ (64 - s))
    (h2 : q2 < 2 ^ (64 - s)) (hne : q1 ≠ q2) :
    (q1 * 2 ^ s) % 2 ^ 64 ≠ (q2 * 2 ^ s) % 2 ^ 64 := by
  have hb : ∀ q : ℕ, q < 2 ^ (64 - s) → q * 2 ^ s < 2 ^ 64 := by
    intro q hq
    calc q * 2 ^ s < 2 ^ (64 - s) * 2 ^ s :=
          (Nat.mul_lt_mul_right (pow_pos (by norm_num) s)).mpr hq
      _ = 2 ^ 64 := by
          rw [← pow_add]
          congr 1
          omega
  rw [Nat.mod_eq_of_lt (hb q1 h1), Nat.mod_eq_of_lt (hb q2 h2)]
  intro h
  exact hne (Nat.eq_of_mul_eq_mul_right (pow_pos (by norm_num) s) h)

/-- Gap scaling: a gap of more than `1/c` becomes a gap of more than 1
after multiplying both values by `c > 0`. -/
theorem gap_scale (u v c : ℚ) (hc : 0 < c) (h : 1 / c < |v - u|) :
    1 < |v * c - u * c| := by
  have heq : v * c - u * c = (v - u) * c := by ring
  rw [heq, abs_mul, abs_of_pos hc]
  calc (1 : ℚ) = (1 / c) * c := by field_simp
    _ < |v - u| * c := mul_lt_mul_of_pos_right h hc

/-- A shifted hash term changes whenever its field value (non-negative,
below the field's overflow bound `2^(64-s)`) changes by more than 1. -/
theorem hash_shifted_term_ne {v1 v2 : ℚ} (s : ℕ) (hs1 : 1 ≤ s) (hs : s ≤ 64)
    (h1 : 0 ≤ v1) (h2 : 0 ≤ v2)
    (hb1 : v1 < ((2 ^ (64 - s) : ℕ) : ℚ)) (hb2 : v2 < ((2 ^ (64 - s) : ℕ) : ℚ))
    (hgap : 1 < |v2 - v1|) :
    (f32ToU64 v1 * 2 ^ s) % 2 ^ 64 ≠ (f32ToU64 v2 * 2 ^ s) % 2 ^ 64 := by
  have hle : ((2 ^ (64 - s) : ℕ) : ℚ) ≤ ((2 ^ 64 - 1 : ℕ) : ℚ) := by
    have ha : (2 : ℕ) ^ (64 - s) ≤ 2 ^ 63 := Nat.pow_le_pow_right (by norm_num) (by omega)
    have hb : (2 : ℕ) ^ 63 ≤ 2 ^ 64 - 1 := by norm_num
    exact_mod_cast le_trans ha hb
  exact shifted_ne s hs (f32ToU64_lt h1 hb1) (f32ToU64_lt h2 hb2)
    (f32ToU64_ne_of_abs_gap h1 h2 (lt_of_lt_of_le hb1 hle) (lt_of_lt_of_le hb2 hle) hgap)

/-- Cast evaluation: `u64::MAX` as a rational. -/
theorem u64MaxCast : ((2 ^ 64 - 1 : ℕ) : ℚ) = 2 ^ 64 - 1 := by norm_num

/-- Cast evaluation for the shift-10 overflow bound. -/
theorem pow54Cast : ((2 ^ (64 - 10) : ℕ) : ℚ) = 2 ^ 54 := by norm_num

/-- Cast evaluation for the shift-20 overflow bound. -/
theorem pow44Cast : ((2 ^ (64 - 20) : ℕ) : ℚ) = 2 ^ 44 := by norm_num

/-- Cast evaluation for the shift-30 overflow bound. -/
theorem pow34Cast : ((2 ^ (64 - 30) : ℕ) : ℚ) = 2 ^ 34 := by norm_num

/-- Cast evaluation for the shift-40 overflow bound. -/
theorem pow24Cast : ((2 ^ (64 - 40) : ℕ) : ℚ) = 2 ^ 24 := by norm_num

/-- Cast evaluation for the shift-50 overflow bound. -/
theorem pow14Cast : ((2 ^ (64 - 50) : ℕ) : ℚ) = 2 ^ 14 := by norm_num

/-- Claim C3 counterexample: moving the camera x from -5 to -3 (a change of
2, far above the 0.001 quantization step) leaves the fingerprint unchanged,
because the Rust `as u64` cast saturates every negative quantized value
to 0. -/
theorem negative_x_change_keeps_hash :
    MolecularSystem.calculate_camera_hash ⟨-5, 2, 5, 0, 0, 0⟩ 1 1 1 100 =
      MolecularSystem.calculate_camera_hash ⟨-3, 2, 5, 0, 0, 0⟩ 1 1 1 100 ∧
    (0.001 : ℚ) < |(-3 : ℚ) - (-5 : ℚ)| := by
  constructor
  · have hq5 : f32ToU64 ((-5 : ℚ) * 1000) = 0 := by
      unfold f32ToU64
      rw [Nat.floor_eq_zero.mpr (by norm_num)]
      simp
    have hq3 : f32ToU64 ((-3 : ℚ) * 1000) = 0 := by
      unfold f32ToU64
      rw [Nat.floor_eq_zero.mpr (by norm_num)]
      simp
    unfold MolecularSystem.calculate_camera_hash
    dsimp only
    rw [hq5, hq3]
  · rw [show ((-3 : ℚ) - (-5 : ℚ)) = 2 by norm_num,
      abs_of_pos (by norm_num : (0 : ℚ) < 2)]
    norm_num

/-- Claim C3 (amended): in the region where the casts cannot saturate —
each changed scalar non-negative, with its quantized value below the
bit-field's overflow bound (`2^64 - 1` for x and fov, `2^(64-shift)` for
the shifted fields) — changing exactly one of the six camera scalars by
more than 0.001, or the fov by more than 0.01, changes the fingerprint;
for negative scalars the saturating cast can erase the change (see the
counterexample).  And two descriptors with identical quantized encodings
always yield the same fingerprint, whatever their aspect/near/far. -/
theorem camera_hash_single_field_sensitivity :
    (∀ (cam : Camera) (fov aspect near far x' : ℚ),
      0 ≤ cam.x → 0 ≤ x' → cam.x * 1000 < 2 ^ 64 - 1 → x' * 1000 < 2 ^ 64 - 1 →
      (0.001 : ℚ) < |x' - cam.x| →
      MolecularSystem.calculate_camera_hash { cam with x := x' } fov aspect near far ≠
        MolecularSystem.calculate_camera_hash cam fov aspect near far) ∧
    (∀ (cam : Camera) (fov aspect near far y' : ℚ),
      0 ≤ cam.y → 0 ≤ y' → cam.y * 1000 < 2 ^ 54 → y' * 1000 < 2 ^ 54 →
      (0.001 : ℚ) < |y' - cam.y| →
      MolecularSystem.calculate_camera_hash { cam with y := y' } fov aspect near far ≠
        MolecularSystem.calculate_camera_hash cam fov aspect near far) ∧
    (∀ (cam : Camera) (fov aspect near far z' : ℚ),
      0 ≤ cam.z → 0 ≤ z' → cam.z * 1000 < 2 ^ 44 → z' * 1000 < 2 ^ 44 →
      (0.001 : ℚ) < |z' - cam.z| →
      MolecularSystem.calculate_camera_hash { cam with z := z' } fov aspect near far ≠
        MolecularSystem.calculate_camera_hash cam fov aspect near far) ∧
    (∀ (cam : Camera) (fov aspect near far tx' : ℚ),
      0 ≤ cam.target_x → 0 ≤ tx' → cam.target_x * 1000 < 2 ^ 34 → tx' * 1000 < 2 ^ 34 →
      (0.001 : ℚ) < |tx' - cam.target_x| →
      MolecularSystem.calculate_camera_hash { cam with target_x := tx' } fov aspect near far ≠
        MolecularSystem.calculate_camera_hash cam fov aspect near far) ∧
    (∀ (cam : Camera) (fov aspect near far ty' : ℚ),
      0 ≤ cam.target_y → 0 ≤ ty' → cam.target_y * 1000 < 2 ^ 24 → ty' * 1000 < 2 ^ 24 →
      (0.001 : ℚ) < |ty' - cam.target_y| →
      MolecularSystem.calculate_camera_hash { cam with target_y := ty' } fov aspect near far ≠
        MolecularSystem.calculate_camera_hash cam fov aspect near far) ∧
    (∀ (cam : Camera) (fov aspect near far tz' : ℚ),
      0 ≤ cam.target_z → 0 ≤ tz' → cam.target_z * 1000 < 2 ^ 14 → tz' * 1000 < 2 ^ 14 →
      (0.001 : ℚ) < |tz' - cam.target_z| →
      MolecularSystem.calculate_camera_hash { cam with target_z := tz' } fov aspect near far ≠
        MolecularSystem.calculate_camera_hash cam fov aspect near far) ∧
    (∀ (cam : Camera) (fov aspect near far fov' : ℚ),
      0 ≤ fov → 0 ≤ fov' → fov * 100 < 2 ^ 64 - 1 → fov' * 100 < 2 ^ 64 - 1 →
      (0.01 : ℚ) < |fov' - fov| →
      MolecularSystem.calculate_camera_hash cam fov' aspect near far ≠
        MolecularSystem.calculate_camera_hash cam fov aspect near far) ∧
    (∀ (c1 : Camera) (f1 a1 n1 fr1 : ℚ) (c2 : Camera) (f2 a2 n2 fr2 : ℚ),
      MolecularSystem.cameraQuantEncoding c1 f1 = MolecularSystem.cameraQuantEncoding c2 f2 →
      MolecularSystem.calculate_camera_hash c1 f1 a1 n1 fr1 =
        MolecularSystem.calculate_camera_hash c2 f2 a2 n2 fr2) := by
  refine ⟨?_, ?_, ?_, ?_, ?_, ?_, ?_, ?_⟩
  · intro cam fov aspect near far x' h1 h2 hb1 hb2 hgap
    have hgap' : 1 / 1000 < |cam.x - x'| := by
      rw [abs_sub_comm]
      calc (1 : ℚ) / 1000 = 0.001 := by norm_num
        _ < |x' - cam.x| := hgap
    have hx : f32ToU64 (x' * 1000) ≠ f32ToU64 (cam.x * 1000) :=
      f32ToU64_ne_of_abs_gap (mul_nonneg h2 (by norm_num)) (mul_nonneg h1 (by norm_num))
        (by rw [u64MaxCast]; exact hb2) (by rw [u64MaxCast]; exact hb1)
        (gap_scale x' cam.x 1000 (by norm_num) hgap')
    unfold MolecularSystem.calculate_camera_hash
    dsimp only
    exact xor_ne_right (xor_ne_right (xor_ne_right (xor_ne_right (xor_ne_right
      (xor_ne_right hx _) _) _) _) _) _
  · intro cam fov aspect near far y' h1 h2 hb1 hb2 hgap
    have hgap' : 1 / 1000 < |cam.y - y'| := by
      rw [abs_sub_comm]
      calc (1 : ℚ) / 1000 = 0.001 := by norm_num
        _ < |y' - cam.y| := hgap
    have hy : (f32ToU64 (y' * 1000) * 2 ^ 10) % 2 ^ 64 ≠
        (f32ToU64 (cam.y * 1000) * 2 ^ 10) % 2 ^ 64 :=
      hash_shifted_term_ne 10 (by norm_num) (by norm_num)
        (mul_nonneg h2 (by norm_num)) (mul_nonneg h1 (by norm_num))
        (by rw [pow54Cast]; exact hb2) (by rw [pow54Cast]; exact hb1)
        (gap_scale y' cam.y 1000 (by norm_num) hgap')
    unfold MolecularSystem.calculate_camera_hash
    dsimp only
    exact xor_ne_right (xor_ne_right (xor_ne_right (xor_ne_right (xor_ne_right
      (xor_ne_left _ hy) _) _) _) _) _
  · intro cam fov aspect near far z' h1 h2 hb1 hb2 hgap
    have hgap' : 1 / 1000 < |cam.z - z'| := by
      rw [abs_sub_comm]
      calc (1 : ℚ) / 1000 = 0.001 := by norm_num
        _ < |z' - cam.z| := hgap
    have hz : (f32ToU64 (z' * 1000) * 2 ^ 20) % 2 ^ 64 ≠
        (f32ToU64 (cam.z * 1000) * 2 ^ 20) % 2 ^ 64 :=
      hash_shifted_term_ne 20 (by norm_num) (by norm_num)
        (mul_nonneg h2 (by norm_num)) (mul_nonneg h1 (by norm_num))
        (by rw [pow44Cast]; exact hb2) (by rw [pow44Cast]; exact hb1)
        (gap_scale z' cam.z 1000 (by norm_num) hgap')
    unfold MolecularSystem.calculate_camera_hash
    dsimp only
    exact xor_ne_right (xor_ne_right (xor_ne_right (xor_ne_right
      (xor_ne_left _ hz) _) _) _) _
  · intro cam fov aspect near far tx' h1 h2 hb1 hb2 hgap
    have hgap' : 1 / 1000 < |cam.target_x - tx'| := by
      rw [abs_sub_comm]
      calc (1 : ℚ) / 1000 = 0.001 := by norm_num
        _ < |tx' - cam.target_x| := hgap
    have htx : (f32ToU64 (tx' * 1000) * 2 ^ 30) % 2 ^ 64 ≠
        (f32ToU64 (cam.target_x * 1000) * 2 ^ 30) % 2 ^ 64 :=
      hash_shifted_term_ne 30 (by norm_num) (by norm_num)
        (mul_nonneg h2 (by norm_num)) (mul_nonneg h1 (by norm_num))
        (by rw [pow34Cast]; exact hb2) (by rw [pow34Cast]; exact hb1)
        (gap_scale tx' cam.target_x 1000 (by norm_num) hgap')
    unfold MolecularSystem.calculate_camera_hash
    dsimp only
    exact xor_ne_right (xor_ne_right (xor_ne_right (xor_ne_left _ htx) _) _) _
  · intro cam fov aspect near far ty' h1 h2 hb1 hb2 hgap
    have hgap' : 1 / 1000 < |cam.target_y - ty'| := by
      rw [abs_sub_comm]
      calc (1 : ℚ) / 1000 = 0.001 := by norm_num
        _ < |ty' - cam.target_y| := hgap
    have hty : (f32ToU64 (ty' * 1000) * 2 ^ 40) % 2 ^ 64 ≠
        (f32ToU64 (cam.target_y * 1000) * 2 ^ 40) % 2 ^ 64 :=
      hash_shifted_term_ne 40 (by norm_num) (by norm_num)
        (mul_nonneg h2 (by norm_num)) (mul_nonneg h1 (by norm_num))
        (by rw [pow24Cast]; exact hb2) (by rw [pow24Cast]; exact hb1)
        (gap_scale ty' cam.target_y 1000 (by norm_num) hgap')
    unfold MolecularSystem.calculate_camera_hash
    dsimp only
    exact xor_ne_right (xor_ne_right (xor_ne_left _ hty) _) _
  · intro cam fov aspect near far tz' h1 h2 hb1 hb2 hgap
    have hgap' : 1 / 1000 < |cam.target_z - tz'| := by
      rw [abs_sub_comm]
      calc (1 : ℚ) / 1000 = 0.001 := by norm_num
        _ < |tz' - cam.target_z| := hgap
    have htz : (f32ToU64 (tz' * 1000) * 2 ^ 50) % 2 ^ 64 ≠
        (f32ToU64 (cam.target_z * 1000) * 2 ^ 50) % 2 ^ 64 :=
      hash_shifted_term_ne 50 (by norm_num) (by norm_num)
        (mul_nonneg h2 (by norm_num)) (mul_nonneg h1 (by norm_num))
        (by rw [pow14Cast]; exact hb2) (by rw [pow14Cast]; exact hb1)
        (gap_scale tz' cam.target_z 1000 (by norm_num) hgap')
    unfold MolecularSystem.calculate_camera_hash
    dsimp only
    exact xor_ne_right (xor_ne_left _ htz) _
  · intro cam fov aspect near far fov' h1 h2 hb1 hb2 hgap
    have hgap' : 1 / 100 < |fov - fov'| := by
      rw [abs_sub_comm]
      calc (1 : ℚ) / 100 = 0.01 := by norm_num
        _ < |fov' - fov| := hgap
    have hf : f32ToU64 (fov' * 100) ≠ f32ToU64 (fov * 100) :=
      f32ToU64_ne_of_abs_gap (mul_nonneg h2 (by norm_num)) (mul_nonneg h1 (by norm_num))
        (by rw [u64MaxCast]; exact hb2) (by rw [u64MaxCast]; exact hb1)
        (gap_scale fov' fov 100 (by norm_num) hgap')
    unfold MolecularSystem.calculate_camera_hash
    exact xor_ne_left _ hf
  · intro c1 f1 a1 n1 fr1 c2 f2 a2 n2 fr2 h
    simp only [MolecularSystem.cameraQuantEncoding, List.cons.injEq, and_true] at h
    obtain ⟨h1, h2, h3, h4, h5, h6, h7⟩ := h
    unfold MolecularSystem.calculate_camera_hash
    rw [h1, h2, h3, h4, h5, h6, h7]

/-- Witness for the amended C3: moving x from 0 to 1 (gap 1 > 0.001, both
non-negative and far below saturation) changes the fingerprint, and equal
quantized encodings (same camera/fov, different aspect/near/far) give equal
fingerprints. -/
theorem camera_hash_single_field_sensitivity_witness :
    MolecularSystem.calculate_camera_hash
        { x := 1, y := 2, z := 5, target_x := 0, target_y := 0, target_z := 0 } 1 1 1 100 ≠
      MolecularSystem.calculate_camera_hash ⟨0, 2, 5, 0, 0, 0⟩ 1 1 1 100 ∧
    MolecularSystem.calculate_camera_hash Camera.new 1 1 1 100 =
      MolecularSystem.calculate_camera_hash Camera.new 1 2 3 400 :=
  ⟨camera_hash_single_field_sensitivity.1 ⟨0, 2, 5, 0, 0, 0⟩ 1 1 1 100 1
      (le_refl _) (by norm_num) (by dsimp only; norm_num) (by norm_num)
      (by dsimp only; rw [sub_zero, abs_one]; norm_num),
   camera_hash_single_field_sensitivity.2.2.2.2.2.2.2 Camera.new 1 1 1 100
      Camera.new 1 2 3 400 rfl⟩
